import Mathlib

/-!
Shallow embedding of the aiomongo bulk-write and GridFS layers.

Sources: `src/aiomongo/gridfs.py` is embedded directly.  The bulk engine
(batch splitter, executor, result aggregator), the GridIn/GridOut file
classes and `GridFS.exists` are code of this repository that is not under
`src/` (only their tests and callers are), so they are modelled from the
spec; each such definition carries a doc comment starting
`Modelled from the spec:`.

Machine integers do not occur: every count is a `Nat`, byte values are
`Nat`s, ids are a small value type.  Fallible Python code is embedded as
`Except PyError`.
-/

/- ## Bulk write model (spec sections 3, 4.1-4.3) -/

/-- Modelled from the spec: the run kind of a write operation; the server's
bulk protocol processes one operation type per batch message (spec 4.1), so
Insert, Update*/Replace and Delete* group into these three kinds. -/
inductive OpKind where
  | insertK
  | updateK
  | deleteK
deriving DecidableEq

/-- Modelled from the spec: one submitted write operation (spec section 3),
abstracted to what batching and aggregation observe: its kind, its
approximate encoded byte size, and an opaque payload that the collaborator's
outcome may depend on. -/
structure WriteOp where
  kind : OpKind
  size : Nat
  payload : Nat
deriving DecidableEq

/-- Modelled from the spec: the collaborator's raw per-operation outcome
(spec section 6): inserted, matched (with or without modification),
removed-n, upserted with a generated id, or a per-operation write error. -/
inductive OpResult where
  | inserted
  | matched (modified : Bool)
  | removed (n : Nat)
  | upserted (newId : Nat)
  | writeError (code : Nat)
deriving DecidableEq

def OpResult.isErr : OpResult → Bool
  | .writeError _ => true
  | _ => false

/-- One entry of a BulkResult's upserted list: global index and generated id. -/
structure UpsertEntry where
  index : Nat
  newId : Nat
deriving DecidableEq

/-- One entry of a BulkResult's writeErrors list: global index, error code,
and the failed operation. -/
structure WriteErrorEntry where
  index : Nat
  code : Nat
  op : WriteOp
deriving DecidableEq

/-- Modelled from the spec: the aggregate result of a bulk execution
(spec section 3, BulkResult).  The nModified-unknown refinement and write
concern errors are outside the claims and are not modelled. -/
structure BulkResult where
  nInserted : Nat
  nMatched : Nat
  nModified : Nat
  nUpserted : Nat
  nRemoved : Nat
  upserted : List UpsertEntry
  writeErrors : List WriteErrorEntry
deriving DecidableEq

def BulkResult.empty : BulkResult := ⟨0, 0, 0, 0, 0, [], []⟩

/-- Pointwise sum of counters, concatenation of the entry lists. -/
def BulkResult.append (a b : BulkResult) : BulkResult :=
  ⟨a.nInserted + b.nInserted, a.nMatched + b.nMatched, a.nModified + b.nModified,
   a.nUpserted + b.nUpserted, a.nRemoved + b.nRemoved,
   a.upserted ++ b.upserted, a.writeErrors ++ b.writeErrors⟩

def UpsertEntry.shift (off : Nat) (u : UpsertEntry) : UpsertEntry :=
  ⟨off + u.index, u.newId⟩

def WriteErrorEntry.shift (off : Nat) (e : WriteErrorEntry) : WriteErrorEntry :=
  ⟨off + e.index, e.code, e.op⟩

/-- Modelled from the spec: the aggregator's index rewrite (spec 4.3): a
server-provided within-batch index becomes the global index by adding the
cumulative operation count `off` of all preceding batches. -/
def BulkResult.shift (off : Nat) (r : BulkResult) : BulkResult :=
  { r with upserted := r.upserted.map (UpsertEntry.shift off),
           writeErrors := r.writeErrors.map (WriteErrorEntry.shift off) }

/-- The contribution of a single operation `op` at index `k` whose
collaborator outcome is the given `OpResult`. -/
def opOutcomeAt (k : Nat) (op : WriteOp) : OpResult → BulkResult
  | .inserted => { BulkResult.empty with nInserted := 1 }
  | .matched m => { BulkResult.empty with nMatched := 1, nModified := if m then 1 else 0 }
  | .removed n => { BulkResult.empty with nRemoved := n }
  | .upserted i => { BulkResult.empty with nUpserted := 1, upserted := [⟨k, i⟩] }
  | .writeError c => { BulkResult.empty with writeErrors := [⟨k, c, op⟩] }

/-- Modelled from the spec: the raw response the collaborator reports for a
run of operations starting at index `k`, all of them attempted (unordered
semantics within a run); with `k = 0` this is a per-batch raw response with
within-batch indices. -/
def unorderedOutcome (server : WriteOp → OpResult) (k : Nat) : List WriteOp → BulkResult
  | [] => BulkResult.empty
  | op :: ops => (opOutcomeAt k op (server op)).append (unorderedOutcome server (k + 1) ops)

/-- Modelled from the spec: ordered semantics of a run of operations starting
at index `k`: operations are attempted in sequence and processing stops at
the first write error, which is recorded; operations after it are not
attempted (spec 4.2). -/
def orderedOutcome (server : WriteOp → OpResult) (k : Nat) : List WriteOp → BulkResult
  | [] => BulkResult.empty
  | op :: ops =>
    if (server op).isErr then opOutcomeAt k op (server op)
    else (opOutcomeAt k op (server op)).append (orderedOutcome server (k + 1) ops)

/-- How many operations of the list an ordered execution attempts: everything
up to and including the first write error, or all of them. -/
def stopLen (server : WriteOp → OpResult) : List WriteOp → Nat
  | [] => 0
  | op :: ops => if (server op).isErr then 1 else 1 + stopLen server ops

/-- True when no operation of the list draws a write error. -/
def noErr (server : WriteOp → OpResult) : List WriteOp → Bool
  | [] => true
  | op :: ops => !(server op).isErr && noErr server ops

def batchBytes : List WriteOp → Nat
  | [] => 0
  | op :: ops => op.size + batchBytes ops

/-- True when `op` has the same kind as every operation already in the
current batch (the splitter breaks on kind change, spec 4.1). -/
def sameKind (cur : List WriteOp) (op : WriteOp) : Bool :=
  cur.all (fun o => o.kind == op.kind)

/-- Modelled from the spec: the greedy batch splitter's inner loop
(spec 4.1): `cur` is the nonempty current batch; the next operation joins it
unless that would exceed the count ceiling `mc` or the byte ceiling `ms`, or
its kind differs; then a new batch starts.  A single oversized operation
still forms its own batch. -/
def splitGo (mc ms : Nat) (cur : List WriteOp) : List WriteOp → List (List WriteOp)
  | [] => [cur]
  | op :: ops =>
    if cur.length < mc ∧ batchBytes cur + op.size ≤ ms ∧ sameKind cur op then
      splitGo mc ms (cur ++ [op]) ops
    else
      cur :: splitGo mc ms [op] ops

/-- Modelled from the spec: groups the submitted operation sequence into
batches respecting max batch count `mc`, max batch byte size `ms`, and
homogeneous kind, preserving order (spec 4.1). -/
def splitBatches (mc ms : Nat) : List WriteOp → List (List WriteOp)
  | [] => []
  | op :: ops => splitGo mc ms [op] ops

/-- Modelled from the spec: the unordered executor-aggregator (spec 4.2-4.3):
every batch is dispatched; each per-batch raw response (within-batch indices)
is rewritten by the cumulative operation count `off` of the preceding batches
and appended to the accumulator. -/
def aggUnordered (server : WriteOp → OpResult) (off : Nat) (acc : BulkResult) :
    List (List WriteOp) → BulkResult
  | [] => acc
  | b :: bs =>
    aggUnordered server (off + b.length)
      (acc.append ((unorderedOutcome server 0 b).shift off)) bs

/-- Modelled from the spec: the ordered executor-aggregator (spec 4.2-4.3):
batches are dispatched strictly in sequence; after a batch whose response
contains a write error no further batch is issued.  Returns the aggregate and
the list of operations actually attempted, in order. -/
def aggOrdered (server : WriteOp → OpResult) (off : Nat) (acc : BulkResult) :
    List (List WriteOp) → BulkResult × List WriteOp
  | [] => (acc, [])
  | b :: bs =>
    let r := orderedOutcome server 0 b
    if r.writeErrors.isEmpty then
      let rest := aggOrdered server (off + b.length) (acc.append (r.shift off)) bs
      (rest.1, b ++ rest.2)
    else
      (acc.append (r.shift off), b.take (stopLen server b))

/-- Modelled from the spec: a full unordered bulk execution over the split
into batches. -/
def executeBulkUnordered (mc ms : Nat) (server : WriteOp → OpResult)
    (ops : List WriteOp) : BulkResult :=
  aggUnordered server 0 BulkResult.empty (splitBatches mc ms ops)

/-- Modelled from the spec: a full ordered bulk execution over the split into
batches, returning the aggregate and the attempted operations. -/
def executeBulkOrdered (mc ms : Nat) (server : WriteOp → OpResult)
    (ops : List WriteOp) : BulkResult × List WriteOp :=
  aggOrdered server 0 BulkResult.empty (splitBatches mc ms ops)

/- ## Errors -/

/-- The typed failures surfaced by this layer.  `nameError` models Python's
NameError for an unbound name; `attributeError` models attribute access on an
object lacking the attribute. -/
inductive PyError where
  | noFile
  | fileExists
  | configurationError
  | invalidOperation
  | invalidState
  | corruptGridFile
  | nameError (missing : String)
  | attributeError (attr : String)
  | bulkWriteError (details : BulkResult)
deriving DecidableEq

/-- Modelled from the spec: the single-use bulk operation builder
(spec 4.2, 5): it accumulates operations and may be executed once. -/
structure BulkOperationBuilder where
  ops : List WriteOp
  executed : Bool
deriving DecidableEq

/-- Modelled from the spec: `execute` (spec 4.2).  Fails with
InvalidOperation when the operation list is empty or the builder was already
executed, before touching the collaborator: the dispatched-operation trace
`trace` (collaborator-held persistent state) is returned unchanged on these
paths.  Otherwise batches are dispatched (appending the attempted operations
to the trace) and the call yields the aggregate, failing with BulkWriteError
carrying it when any write error was reported. -/
def BulkOperationBuilder.execute (b : BulkOperationBuilder) (mc ms : Nat)
    (server : WriteOp → OpResult) (ordered : Bool) (trace : List WriteOp) :
    Except PyError BulkResult × BulkOperationBuilder × List WriteOp :=
  if b.ops.isEmpty then (.error .invalidOperation, b, trace)
  else if b.executed then (.error .invalidOperation, b, trace)
  else
    let b' : BulkOperationBuilder := { b with executed := true }
    if ordered then
      let ra := executeBulkOrdered mc ms server b.ops
      ((if ra.1.writeErrors.isEmpty then .ok ra.1 else .error (.bulkWriteError ra.1)),
       b', trace ++ ra.2)
    else
      let r := executeBulkUnordered mc ms server b.ops
      ((if r.writeErrors.isEmpty then .ok r else .error (.bulkWriteError r)),
       b', trace ++ b.ops)

/- ## GridFS data model (spec section 3) -/

/-- Document values as far as the claims need them: ints, strings, and
object ids (client- or server-generated). -/
inductive Val where
  | vInt (n : Int)
  | vStr (s : String)
  | oid (n : Nat)
deriving DecidableEq

/-- Bytes are modelled as lists of naturals. -/
abbrev Bytes := List Nat

/-- A metadata document of the files collection: spec section 3, GridFile.
The md5 checksum is outside the claims and not modelled. -/
structure FileDoc where
  id : Val
  filename : Option String
  length : Nat
  chunkSize : Nat
  uploadDate : Nat
  metadata : List (String × Val)
deriving DecidableEq

/-- A chunk document: back-reference `filesId`, zero-based index `n`, data. -/
structure ChunkDoc where
  filesId : Val
  n : Nat
  data : Bytes
deriving DecidableEq

/-- The persisted state of one GridFS bucket: the files and chunks
collections, plus a logical clock used for upload dates and fresh object
ids. -/
structure Store where
  files : List FileDoc
  chunks : List ChunkDoc
  clock : Nat
deriving DecidableEq

def Store.empty : Store := ⟨[], [], 0⟩

/- ## GridFS queries -/

def lookupMeta (k : String) : List (String × Val) → Option Val
  | [] => none
  | p :: ps => if p.1 = k then some p.2 else lookupMeta k ps

/-- Does the file's metadata satisfy every keyword constraint (equality
matching)? -/
def metaMatches (f : FileDoc) : List (String × Val) → Bool
  | [] => true
  | p :: ps => decide (lookupMeta p.1 f.metadata = some p.2) && metaMatches f ps

/-- The query get_version builds (gridfs.py lines 101-103): the keyword
filters, plus the filename when one is given. -/
def queryMatches (f : FileDoc) (filename : Option String) (kw : List (String × Val)) : Bool :=
  (match filename with
   | none => true
   | some fn => decide (f.filename = some fn)) && metaMatches f kw

def filterMatching (filename : Option String) (kw : List (String × Val)) :
    List FileDoc → List FileDoc
  | [] => []
  | f :: fs =>
    if queryMatches f filename kw then f :: filterMatching filename kw fs
    else filterMatching filename kw fs

/-- Insertion step of a stable insertion sort on file documents. -/
def insertLe (le : FileDoc → FileDoc → Bool) (x : FileDoc) : List FileDoc → List FileDoc
  | [] => [x]
  | y :: ys => if le x y then x :: y :: ys else y :: insertLe le x ys

/-- Sorting of a files cursor (the collaborator's sort primitive). -/
def sortLe (le : FileDoc → FileDoc → Bool) (l : List FileDoc) : List FileDoc :=
  l.foldr (insertLe le) []

def ascByDate (a b : FileDoc) : Bool := a.uploadDate ≤ b.uploadDate

def descByDate (a b : FileDoc) : Bool := b.uploadDate ≤ a.uploadDate

/- ## GridIn / GridOut (grid_file.py is not under src/) -/

/-- A reader handle over an already-resolved metadata document. -/
structure GridOut where
  file : FileDoc
deriving DecidableEq

def findFile (fid : Val) : List FileDoc → Option FileDoc
  | [] => none
  | f :: fs => if f.id = fid then some f else findFile fid fs

def anyFileWithId (fid : Val) : List FileDoc → Bool
  | [] => false
  | f :: fs => decide (f.id = fid) || anyFileWithId fid fs

def insertChunkLe (x : ChunkDoc) : List ChunkDoc → List ChunkDoc
  | [] => [x]
  | y :: ys => if x.n ≤ y.n then x :: y :: ys else y :: insertChunkLe x ys

def chunksFor (fid : Val) : List ChunkDoc → List ChunkDoc
  | [] => []
  | c :: cs => if c.filesId = fid then c :: chunksFor fid cs else chunksFor fid cs

/-- Modelled from the spec: GridOut.read (grid_file.py is not under src/):
streams the file's chunk documents back in ascending `n` order and
concatenates their data (spec 4.5; the corruption checks are outside the
claims and not modelled). -/
def gridRead (s : Store) (fid : Val) : Bytes :=
  ((chunksFor fid s.chunks).foldr insertChunkLe []).foldr (fun c acc => c.data ++ acc) []

/-- Options passed through put/new_file to GridIn creation. -/
structure PutOpts where
  idOpt : Option Val := none
  filename : Option String := none
  chunkSize : Nat := 255 * 1024
  metadata : List (String × Val) := []
deriving DecidableEq

/-- Modelled from the spec: a writer handle in its Open state (spec 4.4):
an id fixed at creation, creation options, an internal buffer, the number of
chunk documents already emitted and the bytes written so far. -/
structure GridIn where
  id : Val
  filename : Option String
  chunkSize : Nat
  metadata : List (String × Val)
  buffer : Bytes
  nChunks : Nat
  bytesWritten : Nat
  closed : Bool
deriving DecidableEq

/-- Modelled from the spec: new-file creation (spec 4.4): an open writer with
an empty buffer and nothing persisted yet. -/
def GridIn.new (opts : PutOpts) (fid : Val) : GridIn :=
  ⟨fid, opts.filename, opts.chunkSize, opts.metadata, [], 0, 0, false⟩

/-- The first `k` chunk documents of size `cs` cut from `buf`, numbered from
`startN`. -/
def makeChunks (fid : Val) (cs startN : Nat) : Nat → Bytes → List ChunkDoc
  | 0, _ => []
  | k + 1, buf => ⟨fid, startN, buf.take cs⟩ :: makeChunks fid cs (startN + 1) k (buf.drop cs)

/-- Modelled from the spec: the body of the GridIn.write coroutine
(spec 4.4): valid only while Open; appends `data` to the buffer and emits one
full chunk document for every `chunkSize` bytes the buffer now holds, keeping
the remainder buffered. -/
def GridIn.write (g : GridIn) (s : Store) (data : Bytes) : Except PyError (GridIn × Store) :=
  if g.closed then .error .invalidState
  else
    let buf := g.buffer ++ data
    let k := if g.chunkSize = 0 then 0 else buf.length / g.chunkSize
    .ok ({ g with buffer := buf.drop (k * g.chunkSize),
                  nChunks := g.nChunks + k,
                  bytesWritten := g.bytesWritten + data.length },
         { s with chunks := s.chunks ++ makeChunks g.id g.chunkSize g.nChunks k buf })

/-- Modelled from the spec: GridIn.close (spec 4.4): flushes any remaining
partial buffer as a final chunk, then persists the metadata document with the
total length and the upload date taken from the store clock; fails with
FileExists when a persisted file already has this id (the just-written chunks
are left in place).  Closing an already-closed writer does nothing. -/
def GridIn.close (g : GridIn) (s : Store) : Except PyError (Val × Store) :=
  if g.closed then .ok (g.id, s)
  else
    let s1 := if g.buffer.isEmpty then s
              else { s with chunks := s.chunks ++ [⟨g.id, g.nChunks, g.buffer⟩] }
    if anyFileWithId g.id s1.files then .error .fileExists
    else .ok (g.id,
      { s1 with files := s1.files ++
                  [⟨g.id, g.filename, g.bytesWritten, g.chunkSize, s.clock, g.metadata⟩],
                clock := s.clock + 1 })

/- ## The GridFS facade (src/aiomongo/gridfs.py) -/

/-- Embeds GridFS.put (gridfs.py lines 20-54).  Line 50 evaluates
`grid_file.write(data)` without `await`: GridIn.write is a coroutine function
(its other callers await it, tests lines 109, 203, 208), so the coroutine
object is created and discarded and the write body never runs; only
`await grid_file.close()` executes, on the unwritten state. -/
def GridFS.put (s : Store) (_data : Bytes) (opts : PutOpts) : Except PyError (Val × Store) :=
  let g := GridIn.new opts (opts.idOpt.getD (Val.oid s.clock))
  GridIn.close g s

/-- Embeds GridFS.get (gridfs.py lines 56-69): builds a GridOut and awaits
`_ensure_file()` before returning it, so a missing id surfaces NoFile at
acquisition time.  Modelled from the spec: `GridOut._ensure_file` itself
(grid_file.py is not under src/) resolves the metadata document by id and
fails with NoFile when the lookup finds nothing (spec 4.5). -/
def GridFS.get (s : Store) (fileId : Val) : Except PyError GridOut :=
  match findFile fileId s.files with
  | some f => .ok ⟨f⟩
  | none => .error .noFile

/-- Embeds GridFS.get_version (gridfs.py lines 71-115): builds the query from
the keyword filters plus the filename, sorts by uploadDate (descending for
negative versions with skip |version|-1, ascending otherwise with skip
version) and takes the first document.  When no document remains, line 115
executes `raise NoFile(...)`, but the name NoFile is never imported in
gridfs.py (its imports are lines 1-6), so Python raises NameError there
instead of gridfs.errors.NoFile.  The files cursor (sort/skip/next) is
collaborator code not under src/ and is modelled from the spec's find
primitive (spec section 6). -/
def GridFS.get_version (s : Store) (filename : Option String) (version : Int)
    (kwargs : List (String × Val)) : Except PyError GridOut :=
  let matching := filterMatching filename kwargs s.files
  let picked :=
    if version < 0 then
      ((sortLe descByDate matching).drop (version.natAbs - 1)).head?
    else
      ((sortLe ascByDate matching).drop version.toNat).head?
  match picked with
  | some f => .ok ⟨f⟩
  | none => .error (.nameError "NoFile")

deriving instance DecidableEq for Except

/-- A Python value as observed by a caller after one `await` of a facade
coroutine: either a genuine GridOut handle, or a coroutine object that was
returned without being awaited (it would produce `pending` if awaited). -/
inductive PyObj where
  | gridOutObj (g : GridOut)
  | coroutineObj (pending : Except PyError GridOut)
deriving DecidableEq

/-- Calling `.read()` on the awaited value: a GridOut streams its bytes; a
coroutine object has no read attribute, so Python raises AttributeError. -/
def PyObj.readAll (s : Store) : PyObj → Except PyError Bytes
  | .gridOutObj g => .ok (gridRead s g.file.id)
  | .coroutineObj _ => .error (.attributeError "read")

/-- Embeds GridFS.get_last_version (gridfs.py lines 117-128).  Line 128 is
`return self.get_version(filename=filename, **kwargs)` inside an async def,
with no `await`: the get_version coroutine is created and returned
un-awaited, so the caller who awaits get_last_version receives a coroutine
object, not a GridOut. -/
def GridFS.get_last_version (s : Store) (filename : Option String)
    (kwargs : List (String × Val)) : PyObj :=
  .coroutineObj (GridFS.get_version s filename (-1) kwargs)

def deleteOneFile (fid : Val) : List FileDoc → List FileDoc
  | [] => []
  | f :: fs => if f.id = fid then fs else f :: deleteOneFile fid fs

def deleteChunks (fid : Val) : List ChunkDoc → List ChunkDoc
  | [] => []
  | c :: cs => if c.filesId = fid then deleteChunks fid cs else c :: deleteChunks fid cs

/-- Embeds GridFS.delete (gridfs.py lines 130-148): one delete_one on the
files collection by `_id`, then delete_many on the chunks collection by
`files_id`.  Neither primitive fails on zero matches, so delete is total. -/
def GridFS.delete (s : Store) (fileId : Val) : Store :=
  { s with files := deleteOneFile fileId s.files,
           chunks := deleteChunks fileId s.chunks }

/- ## GridFS.exists (absent from src/aiomongo/gridfs.py; tests call it) -/

/-- A filter document over file metadata documents. -/
structure FileFilter where
  idQ : Option Val := none
  filenameQ : Option String := none
  metaQ : List (String × Val) := []
deriving DecidableEq

def FileDoc.matchesFilter (f : FileDoc) (q : FileFilter) : Bool :=
  (match q.idQ with
   | none => true
   | some v => decide (f.id = v)) &&
  (match q.filenameQ with
   | none => true
   | some fn => decide (f.filename = some fn)) &&
  metaMatches f q.metaQ

/-- The positional argument of exists: a bare id, or a filter document. -/
inductive DocOrId where
  | byId (v : Val)
  | byDoc (q : FileFilter)
deriving DecidableEq

def FileFilter.isTrivial (q : FileFilter) : Bool :=
  q.idQ.isNone && q.filenameQ.isNone && q.metaQ.isEmpty

/-- The query exists searches with: the keyword filters when any are given,
else the positional argument (a bare id meaning a filter on `_id`). -/
def resolveExistsQuery (arg : Option DocOrId) (kwargs : FileFilter) : FileFilter :=
  if !kwargs.isTrivial then kwargs
  else
    match arg with
    | some (.byId v) => { idQ := some v }
    | some (.byDoc q) => q
    | none => {}

def anyMatching (q : FileFilter) : List FileDoc → Bool
  | [] => false
  | f :: fs => f.matchesFilter q || anyMatching q fs

/-- Modelled from the spec: `exists(id_or_filter, **kwargs) -> bool`
(spec 4.6); GridFS.exists is not under src/ (only tests call it,
test_gridfs.py lines 210-234): it reports whether some persisted file
matches the given id, filter document, or keyword metadata filters. -/
def GridFS.existsFile (s : Store) (arg : Option DocOrId) (kwargs : FileFilter) : Bool :=
  anyMatching (resolveExistsQuery arg kwargs) s.files

/- ## GridFS construction (gridfs.py lines 10-18) -/

structure WriteConcern where
  acknowledged : Bool
deriving DecidableEq

structure Database where
  writeConcern : WriteConcern
deriving DecidableEq

/-- A constructed GridFS facade: it keeps the database it was built over. -/
structure GridFSHandle where
  database : Database
  collection : String
deriving DecidableEq

/-- Embeds GridFS.__init__ (gridfs.py lines 10-18): raises ConfigurationError
unless the database uses an acknowledged write concern; otherwise the facade
is constructed over that database. -/
def GridFS.init (db : Database) (collection : String) : Except PyError GridFSHandle :=
  if !db.writeConcern.acknowledged then .error .configurationError
  else .ok ⟨db, collection⟩

/- ## Concrete data for the evaluation theorems and witnesses -/

/-- The eleven bytes of the ASCII string hello world. -/
def helloWorldBytes : Bytes := [104, 101, 108, 108, 111, 32, 119, 111, 114, 108, 100]

/-- Three versions of filename test, uploaded at dates 0 < 1 < 2, with
one one-byte chunk each ([1], [2], [3]). -/
def threeVersions : Store :=
  ⟨[⟨Val.oid 0, some "test", 1, 255 * 1024, 0, []⟩,
    ⟨Val.oid 1, some "test", 1, 255 * 1024, 1, []⟩,
    ⟨Val.oid 2, some "test", 1, 255 * 1024, 2, []⟩],
   [⟨Val.oid 0, 0, [1]⟩, ⟨Val.oid 1, 0, [2]⟩, ⟨Val.oid 2, 0, [3]⟩],
   3⟩

/-- A two-chunk file under id oid 7, for the delete witness. -/
def twoChunkStore : Store :=
  ⟨[⟨Val.oid 7, some "f", 2, 1, 0, []⟩],
   [⟨Val.oid 7, 0, [10]⟩, ⟨Val.oid 7, 1, [11]⟩],
   1⟩

/-- A collaborator outcome model for the bulk witnesses: payload 9 draws a
duplicate-key write error, payload 5 upserts id 5, anything else inserts. -/
def serverW (op : WriteOp) : OpResult :=
  if op.payload = 9 then .writeError 11000
  else if op.payload = 5 then .upserted 5
  else .inserted

def opsW : List WriteOp :=
  [⟨.insertK, 10, 1⟩, ⟨.insertK, 10, 9⟩, ⟨.updateK, 10, 5⟩]

/- ## Theorems: BulkResult algebra -/

theorem BulkResult.empty_append (r : BulkResult) : BulkResult.empty.append r = r := by
  cases r
  simp [BulkResult.append, BulkResult.empty]

theorem BulkResult.append_empty (r : BulkResult) : r.append BulkResult.empty = r := by
  cases r
  simp [BulkResult.append, BulkResult.empty]

theorem BulkResult.append_assoc (a b c : BulkResult) :
    (a.append b).append c = a.append (b.append c) := by
  cases a
  cases b
  cases c
  simp [BulkResult.append, Nat.add_assoc]

theorem BulkResult.shift_append (off : Nat) (a b : BulkResult) :
    (a.append b).shift off = (a.shift off).append (b.shift off) := by
  cases a
  cases b
  simp [BulkResult.append, BulkResult.shift]

theorem BulkResult.writeErrors_append (a b : BulkResult) :
    (a.append b).writeErrors = a.writeErrors ++ b.writeErrors := rfl

theorem BulkResult.upserted_append (a b : BulkResult) :
    (a.append b).upserted = a.upserted ++ b.upserted := rfl

theorem shift_opOutcomeAt (off k : Nat) (op : WriteOp) (r : OpResult) :
    (opOutcomeAt k op r).shift off = opOutcomeAt (off + k) op r := by
  cases r <;>
    simp [opOutcomeAt, BulkResult.shift, BulkResult.empty, UpsertEntry.shift,
          WriteErrorEntry.shift]

/- ## Theorems: flat semantics of the outcome folds -/

theorem shift_unorderedOutcome (server : WriteOp → OpResult) (off : Nat) :
    ∀ (l : List WriteOp) (k : Nat),
      (unorderedOutcome server k l).shift off = unorderedOutcome server (off + k) l
  | [], k => by simp [unorderedOutcome, BulkResult.shift, BulkResult.empty]
  | op :: l, k => by
    rw [unorderedOutcome, unorderedOutcome, BulkResult.shift_append, shift_opOutcomeAt,
        shift_unorderedOutcome server off l (k + 1), Nat.add_assoc]

theorem unorderedOutcome_append (server : WriteOp → OpResult) :
    ∀ (l₁ l₂ : List WriteOp) (k : Nat),
      unorderedOutcome server k (l₁ ++ l₂) =
        (unorderedOutcome server k l₁).append (unorderedOutcome server (k + l₁.length) l₂)
  | [], l₂, k => by simp [unorderedOutcome, BulkResult.empty_append]
  | op :: l₁, l₂, k => by
    have hn : k + (op :: l₁).length = (k + 1) + l₁.length := by
      simp [List.length_cons]
      omega
    rw [hn, List.cons_append, unorderedOutcome, unorderedOutcome,
        unorderedOutcome_append server l₁ l₂ (k + 1), BulkResult.append_assoc]

theorem shift_orderedOutcome (server : WriteOp → OpResult) (off : Nat) :
    ∀ (l : List WriteOp) (k : Nat),
      (orderedOutcome server k l).shift off = orderedOutcome server (off + k) l
  | [], k => by simp [orderedOutcome, BulkResult.shift, BulkResult.empty]
  | op :: l, k => by
    by_cases h : (server op).isErr = true
    · simp only [orderedOutcome, h, if_true]
      rw [shift_opOutcomeAt]
    · simp only [orderedOutcome, h, if_false, Bool.false_eq_true]
      rw [BulkResult.shift_append, shift_opOutcomeAt, shift_orderedOutcome server off l (k + 1),
          Nat.add_assoc]

theorem opOutcomeAt_writeErrors_of_ok (k : Nat) (op : WriteOp) (r : OpResult)
    (h : r.isErr = false) : (opOutcomeAt k op r).writeErrors = [] := by
  cases r <;> simp_all [opOutcomeAt, OpResult.isErr, BulkResult.empty]

theorem opOutcomeAt_upserted_writeError (k : Nat) (op : WriteOp) (c : Nat) :
    (opOutcomeAt k op (.writeError c)).writeErrors = [⟨k, c, op⟩] := rfl

theorem orderedOutcome_writeErrors_isEmpty (server : WriteOp → OpResult) :
    ∀ (l : List WriteOp) (k : Nat),
      (orderedOutcome server k l).writeErrors.isEmpty = noErr server l
  | [], k => by simp [orderedOutcome, noErr, BulkResult.empty]
  | op :: l, k => by
    rw [orderedOutcome, noErr]
    cases h : (server op).isErr
    · rw [if_neg (by simp), BulkResult.writeErrors_append,
          opOutcomeAt_writeErrors_of_ok k op _ h, List.nil_append,
          orderedOutcome_writeErrors_isEmpty server l (k + 1)]
      simp
    · rw [if_pos rfl]
      cases hs : server op <;> simp [OpResult.isErr, hs] at h ⊢
      simp [opOutcomeAt]

theorem noErr_cons_ok (server : WriteOp → OpResult) (op : WriteOp) (l : List WriteOp)
    (h : (server op).isErr = false) :
    noErr server (op :: l) = noErr server l := by
  rw [noErr, h]
  simp

theorem noErr_cons_err (server : WriteOp → OpResult) (op : WriteOp) (l : List WriteOp)
    (h : (server op).isErr = true) :
    noErr server (op :: l) = false := by
  rw [noErr, h]
  simp

theorem orderedOutcome_append_noErr (server : WriteOp → OpResult) :
    ∀ (l₁ l₂ : List WriteOp) (k : Nat), noErr server l₁ = true →
      orderedOutcome server k (l₁ ++ l₂) =
        (orderedOutcome server k l₁).append (orderedOutcome server (k + l₁.length) l₂)
  | [], l₂, k, _ => by simp [orderedOutcome, BulkResult.empty_append]
  | op :: l₁, l₂, k, h => by
    have h1 : (server op).isErr = false := by
      cases hi : (server op).isErr
      · rfl
      · rw [noErr_cons_err server op l₁ hi] at h
        exact absurd h (by simp)
    rw [noErr_cons_ok server op l₁ h1] at h
    have hn : k + (op :: l₁).length = (k + 1) + l₁.length := by
      simp [List.length_cons]
      omega
    rw [hn, List.cons_append, orderedOutcome, orderedOutcome, if_neg (by simp [h1]),
        if_neg (by simp [h1]), orderedOutcome_append_noErr server l₁ l₂ (k + 1) h,
        BulkResult.append_assoc]

theorem orderedOutcome_append_err (server : WriteOp → OpResult) :
    ∀ (l₁ l₂ : List WriteOp) (k : Nat), noErr server l₁ = false →
      orderedOutcome server k (l₁ ++ l₂) = orderedOutcome server k l₁
  | [], l₂, k, h => by simp [noErr] at h
  | op :: l₁, l₂, k, h => by
    cases h1 : (server op).isErr
    · rw [noErr_cons_ok server op l₁ h1] at h
      rw [List.cons_append, orderedOutcome, orderedOutcome, if_neg (by simp [h1]),
          if_neg (by simp [h1]), orderedOutcome_append_err server l₁ l₂ (k + 1) h]
    · rw [List.cons_append, orderedOutcome, orderedOutcome, if_pos h1, if_pos h1]

theorem stopLen_append_noErr (server : WriteOp → OpResult) :
    ∀ (l₁ l₂ : List WriteOp), noErr server l₁ = true →
      stopLen server (l₁ ++ l₂) = l₁.length + stopLen server l₂
  | [], l₂, _ => by simp [stopLen]
  | op :: l₁, l₂, h => by
    have h1 : (server op).isErr = false := by
      cases hi : (server op).isErr
      · rfl
      · rw [noErr_cons_err server op l₁ hi] at h
        exact absurd h (by simp)
    rw [noErr_cons_ok server op l₁ h1] at h
    rw [List.cons_append, stopLen, if_neg (by simp [h1]),
        stopLen_append_noErr server l₁ l₂ h, List.length_cons]
    omega

theorem stopLen_append_err (server : WriteOp → OpResult) :
    ∀ (l₁ l₂ : List WriteOp), noErr server l₁ = false →
      stopLen server (l₁ ++ l₂) = stopLen server l₁
  | [], l₂, h => by simp [noErr] at h
  | op :: l₁, l₂, h => by
    cases h1 : (server op).isErr
    · rw [noErr_cons_ok server op l₁ h1] at h
      rw [List.cons_append, stopLen, if_neg (by simp [h1])]
      conv_rhs => rw [stopLen, if_neg (by simp [h1])]
      rw [stopLen_append_err server l₁ l₂ h]
    · rw [List.cons_append, stopLen, if_pos h1]
      conv_rhs => rw [stopLen, if_pos h1]

theorem stopLen_le_length (server : WriteOp → OpResult) :
    ∀ l : List WriteOp, stopLen server l ≤ l.length
  | [] => by simp [stopLen]
  | op :: l => by
    rw [stopLen, List.length_cons]
    cases h1 : (server op).isErr
    · rw [if_neg (by simp)]
      have := stopLen_le_length server l
      omega
    · rw [if_pos rfl]
      omega

theorem take_len_add {α : Type} :
    ∀ (l₁ l₂ : List α) (n : Nat), (l₁ ++ l₂).take (l₁.length + n) = l₁ ++ l₂.take n
  | [], l₂, n => by simp
  | x :: l₁, l₂, n => by
    have hl : (x :: l₁).length + n = (l₁.length + n) + 1 := by
      simp [List.length_cons]
      omega
    rw [hl, List.cons_append, List.take_succ_cons, take_len_add l₁ l₂ n, List.cons_append]

theorem take_append_of_le {α : Type} :
    ∀ (l₁ l₂ : List α) (n : Nat), n ≤ l₁.length → (l₁ ++ l₂).take n = l₁.take n
  | [], l₂, n, h => by
    simp at h
    simp [h]
  | x :: l₁, l₂, 0, _ => by simp
  | x :: l₁, l₂, n + 1, h => by
    rw [List.cons_append, List.take_succ_cons, List.take_succ_cons,
        take_append_of_le l₁ l₂ n (by simpa using h)]

/- ## Theorems: the splitter loses and reorders nothing -/

theorem splitGo_join (mc ms : Nat) :
    ∀ (ops cur : List WriteOp), (splitGo mc ms cur ops).flatten = cur ++ ops
  | [], cur => by simp [splitGo]
  | op :: ops, cur => by
    rw [splitGo]
    split
    · rw [splitGo_join mc ms ops (cur ++ [op])]
      simp
    · rw [List.flatten_cons, splitGo_join mc ms ops [op]]
      simp

theorem splitBatches_join (mc ms : Nat) :
    ∀ ops : List WriteOp, (splitBatches mc ms ops).flatten = ops
  | [] => by simp [splitBatches]
  | op :: ops => by
    rw [splitBatches, splitGo_join mc ms ops [op], List.singleton_append]

/- ## Theorems: batched execution equals flat execution -/

theorem aggUnordered_flat (server : WriteOp → OpResult) :
    ∀ (bs : List (List WriteOp)) (off : Nat) (acc : BulkResult),
      aggUnordered server off acc bs = acc.append (unorderedOutcome server off bs.flatten)
  | [], off, acc => by
    simp [aggUnordered, unorderedOutcome, BulkResult.append_empty]
  | b :: bs, off, acc => by
    rw [aggUnordered, aggUnordered_flat server bs, List.flatten_cons,
        unorderedOutcome_append server b bs.flatten off, shift_unorderedOutcome,
        ← BulkResult.append_assoc, Nat.add_zero]

theorem aggOrdered_flat (server : WriteOp → OpResult) :
    ∀ (bs : List (List WriteOp)) (off : Nat) (acc : BulkResult),
      aggOrdered server off acc bs =
        (acc.append (orderedOutcome server off bs.flatten),
         bs.flatten.take (stopLen server bs.flatten))
  | [], off, acc => by
    simp [aggOrdered, orderedOutcome, stopLen, BulkResult.append_empty]
  | b :: bs, off, acc => by
    rw [aggOrdered]
    simp only [orderedOutcome_writeErrors_isEmpty server b 0]
    cases hb : noErr server b
    · rw [if_neg (by simp), List.flatten_cons,
          orderedOutcome_append_err server b bs.flatten off hb,
          stopLen_append_err server b bs.flatten hb,
          take_append_of_le b bs.flatten _ (stopLen_le_length server b),
          shift_orderedOutcome, Nat.add_zero]
    · rw [if_pos rfl, aggOrdered_flat server bs (off + b.length), List.flatten_cons,
          orderedOutcome_append_noErr server b bs.flatten off hb,
          stopLen_append_noErr server b bs.flatten hb,
          take_len_add b bs.flatten (stopLen server bs.flatten),
          shift_orderedOutcome, ← BulkResult.append_assoc]
      simp [Nat.add_zero]

/- ## Theorems: where reported indices point -/

theorem mem_unordered_writeErrors (server : WriteOp → OpResult) :
    ∀ (l : List WriteOp) (k : Nat) (e : WriteErrorEntry),
      e ∈ (unorderedOutcome server k l).writeErrors →
      ∃ j, e.index = k + j ∧ l.get? j = some e.op ∧ server e.op = .writeError e.code
  | [], k, e => by simp [unorderedOutcome, BulkResult.empty]
  | op :: l, k, e => by
    rw [unorderedOutcome, BulkResult.writeErrors_append]
    intro h
    rcases List.mem_append.mp h with h1 | h2
    · cases hs : server op <;> rw [hs] at h1 <;> simp [opOutcomeAt, BulkResult.empty] at h1
      rename_i c
      refine ⟨0, ?_, ?_, ?_⟩ <;> simp [h1, hs]
    · obtain ⟨j, hj, hget, hsv⟩ := mem_unordered_writeErrors server l (k + 1) e h2
      exact ⟨j + 1, by omega, by simpa using hget, hsv⟩

theorem mem_unordered_upserted (server : WriteOp → OpResult) :
    ∀ (l : List WriteOp) (k : Nat) (u : UpsertEntry),
      u ∈ (unorderedOutcome server k l).upserted →
      ∃ j a, u.index = k + j ∧ l.get? j = some a ∧ server a = .upserted u.newId
  | [], k, u => by simp [unorderedOutcome, BulkResult.empty]
  | op :: l, k, u => by
    rw [unorderedOutcome, BulkResult.upserted_append]
    intro h
    rcases List.mem_append.mp h with h1 | h2
    · cases hs : server op <;> rw [hs] at h1 <;> simp [opOutcomeAt, BulkResult.empty] at h1
      rename_i i
      refine ⟨0, op, ?_, ?_, ?_⟩ <;> simp [h1, hs]
    · obtain ⟨j, a, hj, hget, hsv⟩ := mem_unordered_upserted server l (k + 1) u h2
      exact ⟨j + 1, a, by omega, by simpa using hget, hsv⟩

theorem mem_ordered_writeErrors (server : WriteOp → OpResult) :
    ∀ (l : List WriteOp) (k : Nat) (e : WriteErrorEntry),
      e ∈ (orderedOutcome server k l).writeErrors →
      ∃ j, e.index = k + j ∧ l.get? j = some e.op ∧ server e.op = .writeError e.code
  | [], k, e => by simp [orderedOutcome, BulkResult.empty]
  | op :: l, k, e => by
    rw [orderedOutcome]
    cases hi : (server op).isErr
    · rw [if_neg (by simp), BulkResult.writeErrors_append]
      intro h
      rcases List.mem_append.mp h with h1 | h2
      · cases hs : server op <;> rw [hs] at h1 <;> simp [opOutcomeAt, BulkResult.empty] at h1
        rename_i c
        refine ⟨0, ?_, ?_, ?_⟩ <;> simp [h1, hs]
      · obtain ⟨j, hj, hget, hsv⟩ := mem_ordered_writeErrors server l (k + 1) e h2
        exact ⟨j + 1, by omega, by simpa using hget, hsv⟩
    · rw [if_pos rfl]
      intro h1
      cases hs : server op <;> rw [hs] at h1 <;> simp [opOutcomeAt, BulkResult.empty] at h1
      rename_i c
      refine ⟨0, ?_, ?_, ?_⟩ <;> simp [h1, hs]

theorem mem_ordered_upserted (server : WriteOp → OpResult) :
    ∀ (l : List WriteOp) (k : Nat) (u : UpsertEntry),
      u ∈ (orderedOutcome server k l).upserted →
      ∃ j a, u.index = k + j ∧ l.get? j = some a ∧ server a = .upserted u.newId
  | [], k, u => by simp [orderedOutcome, BulkResult.empty]
  | op :: l, k, u => by
    rw [orderedOutcome]
    cases hi : (server op).isErr
    · rw [if_neg (by simp), BulkResult.upserted_append]
      intro h
      rcases List.mem_append.mp h with h1 | h2
      · cases hs : server op <;> rw [hs] at h1 <;> simp [opOutcomeAt, BulkResult.empty] at h1
        rename_i i
        refine ⟨0, op, ?_, ?_, ?_⟩ <;> simp [h1, hs]
      · obtain ⟨j, a, hj, hget, hsv⟩ := mem_ordered_upserted server l (k + 1) u h2
        exact ⟨j + 1, a, by omega, by simpa using hget, hsv⟩
    · rw [if_pos rfl]
      intro h1
      cases hs : server op <;> rw [hs] at h1 hi <;>
        simp [opOutcomeAt, BulkResult.empty, OpResult.isErr] at h1 hi

/- ## Theorems: GridFS store operations -/

theorem anyFileWithId_eq_false (fid : Val) :
    ∀ l : List FileDoc, fid ∉ l.map FileDoc.id → anyFileWithId fid l = false
  | [], _ => rfl
  | f :: l, h => by
    rw [List.map_cons, List.mem_cons, not_or] at h
    rw [anyFileWithId, anyFileWithId_eq_false fid l h.2]
    simp
    exact fun hf => h.1 hf.symm

theorem deleteOneFile_removes (fid : Val) :
    ∀ l : List FileDoc, (l.map FileDoc.id).Nodup →
      anyFileWithId fid (deleteOneFile fid l) = false
  | [], _ => rfl
  | f :: l, h => by
    rw [List.map_cons, List.nodup_cons] at h
    rw [deleteOneFile]
    by_cases hf : f.id = fid
    · rw [if_pos hf]
      exact anyFileWithId_eq_false fid l (hf ▸ h.1)
    · rw [if_neg hf, anyFileWithId, deleteOneFile_removes fid l h.2]
      simp [hf]

theorem deleteOneFile_noop (fid : Val) :
    ∀ l : List FileDoc, anyFileWithId fid l = false → deleteOneFile fid l = l
  | [], _ => rfl
  | f :: l, h => by
    rw [anyFileWithId, Bool.or_eq_false_iff, decide_eq_false_iff_not] at h
    rw [deleteOneFile, if_neg h.1, deleteOneFile_noop fid l h.2]

theorem chunksFor_deleteChunks (fid : Val) :
    ∀ l : List ChunkDoc, chunksFor fid (deleteChunks fid l) = []
  | [] => rfl
  | c :: l => by
    rw [deleteChunks]
    by_cases hc : c.filesId = fid
    · rw [if_pos hc, chunksFor_deleteChunks fid l]
    · rw [if_neg hc, chunksFor, if_neg hc, chunksFor_deleteChunks fid l]

theorem deleteChunks_idem (fid : Val) :
    ∀ l : List ChunkDoc, deleteChunks fid (deleteChunks fid l) = deleteChunks fid l
  | [] => rfl
  | c :: l => by
    rw [deleteChunks]
    by_cases hc : c.filesId = fid
    · rw [if_pos hc, deleteChunks_idem fid l]
    · rw [if_neg hc, deleteChunks, if_neg hc, deleteChunks_idem fid l]

theorem findFile_eq_none (fid : Val) :
    ∀ l : List FileDoc, (∀ f ∈ l, f.id ≠ fid) → findFile fid l = none
  | [], _ => rfl
  | f :: l, h => by
    rw [findFile, if_neg (h f (List.mem_cons_self f l)),
        findFile_eq_none fid l (fun g hg => h g (List.mem_cons_of_mem f hg))]

theorem anyMatching_iff (q : FileFilter) :
    ∀ l : List FileDoc, anyMatching q l = true ↔ ∃ f ∈ l, f.matchesFilter q = true
  | [] => by simp [anyMatching]
  | f :: l => by
    rw [anyMatching, Bool.or_eq_true, anyMatching_iff q l]
    constructor
    · rintro (h | ⟨g, hg, hm⟩)
      · exact ⟨f, List.mem_cons_self f l, h⟩
      · exact ⟨g, List.mem_cons_of_mem f hg, hm⟩
    · rintro ⟨g, hg, hm⟩
      rcases List.mem_cons.mp hg with rfl | hg'
      · exact Or.inl hm
      · exact Or.inr ⟨g, hg', hm⟩

/- ## Claim theorems -/

/-- C1: the claim says put(data) performs new-file-create, writes all of
data, closes the file, and that a read-back yields exactly the original
bytes.  Evaluating the embedded code at the failing input refutes the
round-trip: gridfs.py line 50 never awaits the GridIn.write coroutine, so
putting the eleven bytes of hello world into an empty bucket persists a
zero-length file with zero chunks, and reading the returned id back yields
the empty byte string; the write-all-then-close sequence the claim (and the
docstring and tests) describe would return the original bytes, as the third
conjunct shows. -/
theorem put_never_awaits_write :
    (GridFS.put Store.empty helloWorldBytes {}).map
        (fun r => (gridRead r.2 r.1, r.2.chunks.length)) = .ok ([], 0)
  ∧ helloWorldBytes.length = 11
  ∧ ((GridIn.write (GridIn.new {} (Val.oid 0)) Store.empty helloWorldBytes).bind
        (fun p => GridIn.close p.1 p.2)).map (fun r => gridRead r.2 r.1) =
      .ok helloWorldBytes := by
  refine ⟨by decide, by decide, by decide⟩

/-- C2: the claim says get_version resolves version 0,1,2 in ascending and
-1,-2,-3 in descending uploadDate order (which the embedded code does, first
six conjuncts), and that an out-of-range version fails with NoFile.  The
last two conjuncts evaluate the code at the failing inputs: gridfs.py
line 115 raises the unbound name NoFile (never imported), so Python raises
NameError there, not gridfs.errors.NoFile. -/
theorem get_version_ordering_and_unbound_error_name :
    (GridFS.get_version threeVersions (some "test") 0 []).map
        (fun g => gridRead threeVersions g.file.id) = .ok [1]
  ∧ (GridFS.get_version threeVersions (some "test") 1 []).map
        (fun g => gridRead threeVersions g.file.id) = .ok [2]
  ∧ (GridFS.get_version threeVersions (some "test") 2 []).map
        (fun g => gridRead threeVersions g.file.id) = .ok [3]
  ∧ (GridFS.get_version threeVersions (some "test") (-1) []).map
        (fun g => gridRead threeVersions g.file.id) = .ok [3]
  ∧ (GridFS.get_version threeVersions (some "test") (-2) []).map
        (fun g => gridRead threeVersions g.file.id) = .ok [2]
  ∧ (GridFS.get_version threeVersions (some "test") (-3) []).map
        (fun g => gridRead threeVersions g.file.id) = .ok [1]
  ∧ GridFS.get_version threeVersions (some "test") 3 [] = .error (.nameError "NoFile")
  ∧ GridFS.get_version threeVersions (some "test") (-4) [] = .error (.nameError "NoFile") := by
  refine ⟨by decide, by decide, by decide, by decide, by decide, by decide, by decide, by decide⟩

/-- C3: exists(id_or_filter, **kwargs) returns true exactly when some
persisted file matches the given id, filter document, or keyword metadata
filters. -/
theorem existsFile_iff_some_file_matches (s : Store) (arg : Option DocOrId)
    (kwargs : FileFilter) :
    GridFS.existsFile s arg kwargs = true ↔
      ∃ f ∈ s.files, f.matchesFilter (resolveExistsQuery arg kwargs) = true := by
  rw [GridFS.existsFile]
  exact anyMatching_iff (resolveExistsQuery arg kwargs) s.files

/-- C4: the claim says get_last_version(filename) is equivalent to
get_version(filename, -1) and returns a usable GridOut.  Evaluating the
embedded code on a store holding three versions of test: get_version with
version -1 succeeds and reads back the newest bytes, but gridfs.py line 128
returns the get_version coroutine without awaiting it, so the value a caller
awaits from get_last_version is a coroutine object whose missing read
attribute raises AttributeError (exactly what test_gridfs.py line 114 would
hit). -/
theorem get_last_version_returns_unawaited_coroutine :
    PyObj.readAll threeVersions (GridFS.get_last_version threeVersions (some "test") []) =
      .error (.attributeError "read")
  ∧ (GridFS.get_version threeVersions (some "test") (-1) []).map
        (fun g => gridRead threeVersions g.file.id) = .ok [3]
  ∧ GridFS.get_last_version threeVersions (some "test") [] =
      .coroutineObj (GridFS.get_version threeVersions (some "test") (-1) []) := by
  refine ⟨by decide, by decide, by decide⟩

/-- C5: delete(file_id) removes the metadata document with that id and every
chunk whose files_id equals it, and it is idempotent: a second delete of the
same id (a nonexistent id by then) changes nothing and cannot fail (the
embedding of delete is a total function).  The hypothesis is the persisted
uniqueness of the _id key. -/
theorem delete_removes_all_and_idempotent (s : Store) (fid : Val)
    (h : (s.files.map FileDoc.id).Nodup) :
    anyFileWithId fid (GridFS.delete s fid).files = false
  ∧ chunksFor fid (GridFS.delete s fid).chunks = []
  ∧ GridFS.delete (GridFS.delete s fid) fid = GridFS.delete s fid := by
  refine ⟨?_, ?_, ?_⟩
  · exact deleteOneFile_removes fid s.files h
  · exact chunksFor_deleteChunks fid s.chunks
  · rw [GridFS.delete, GridFS.delete]
    simp [deleteChunks_idem,
          deleteOneFile_noop fid _ (deleteOneFile_removes fid s.files h)]

/-- Witness for C5 at a concrete two-chunk store. -/
theorem delete_removes_all_and_idempotent_witness :
    anyFileWithId (Val.oid 7) (GridFS.delete twoChunkStore (Val.oid 7)).files = false
  ∧ chunksFor (Val.oid 7) (GridFS.delete twoChunkStore (Val.oid 7)).chunks = []
  ∧ GridFS.delete (GridFS.delete twoChunkStore (Val.oid 7)) (Val.oid 7) =
      GridFS.delete twoChunkStore (Val.oid 7) :=
  delete_removes_all_and_idempotent twoChunkStore (Val.oid 7) (by decide)

/-- C6: get(id) on an id with no persisted metadata document fails with
NoFile at acquisition time: the error is produced by get itself (awaiting
the ensure-file step), before any GridOut reaches the caller. -/
theorem get_fails_with_NoFile_eagerly (s : Store) (fid : Val)
    (h : ∀ f ∈ s.files, f.id ≠ fid) :
    GridFS.get s fid = .error .noFile := by
  rw [GridFS.get, findFile_eq_none fid s.files h]

/-- Witness for C6 on the empty store. -/
theorem get_fails_with_NoFile_eagerly_witness :
    GridFS.get Store.empty (Val.oid 5) = .error .noFile :=
  get_fails_with_NoFile_eagerly Store.empty (Val.oid 5) (by
    intro f hf
    exact absurd hf (List.not_mem_nil f))

/-- C7: in every aggregated BulkResult, whether the execution was unordered
or ordered and however the count limit mc, the size limit ms, and the kind
changes split the operations into batches, every writeErrors entry and every
upserted entry carries the global index of the very operation it reports:
the operation at that 0-based position of the originally submitted sequence
is the failed operation (with the server-reported code), respectively an
operation the collaborator upserted with the reported id. -/
theorem bulk_entries_carry_global_indices (mc ms : Nat) (server : WriteOp → OpResult)
    (ops : List WriteOp) :
    (∀ e ∈ (executeBulkUnordered mc ms server ops).writeErrors,
        ops.get? e.index = some e.op ∧ server e.op = .writeError e.code)
  ∧ (∀ u ∈ (executeBulkUnordered mc ms server ops).upserted,
        ∃ a, ops.get? u.index = some a ∧ server a = .upserted u.newId)
  ∧ (∀ e ∈ (executeBulkOrdered mc ms server ops).1.writeErrors,
        ops.get? e.index = some e.op ∧ server e.op = .writeError e.code)
  ∧ (∀ u ∈ (executeBulkOrdered mc ms server ops).1.upserted,
        ∃ a, ops.get? u.index = some a ∧ server a = .upserted u.newId) := by
  have hu : executeBulkUnordered mc ms server ops = unorderedOutcome server 0 ops := by
    rw [executeBulkUnordered, aggUnordered_flat, splitBatches_join, BulkResult.empty_append]
  have ho : (executeBulkOrdered mc ms server ops).1 = orderedOutcome server 0 ops := by
    rw [executeBulkOrdered, aggOrdered_flat, splitBatches_join, BulkResult.empty_append]
  refine ⟨?_, ?_, ?_, ?_⟩
  · intro e he
    rw [hu] at he
    obtain ⟨j, hj, hget, hsv⟩ := mem_unordered_writeErrors server ops 0 e he
    rw [hj, Nat.zero_add]
    exact ⟨hget, hsv⟩
  · intro u hu'
    rw [hu] at hu'
    obtain ⟨j, a, hj, hget, hsv⟩ := mem_unordered_upserted server ops 0 u hu'
    rw [hj, Nat.zero_add]
    exact ⟨a, hget, hsv⟩
  · intro e he
    rw [ho] at he
    obtain ⟨j, hj, hget, hsv⟩ := mem_ordered_writeErrors server ops 0 e he
    rw [hj, Nat.zero_add]
    exact ⟨hget, hsv⟩
  · intro u hu'
    rw [ho] at hu'
    obtain ⟨j, a, hj, hget, hsv⟩ := mem_ordered_upserted server ops 0 u hu'
    rw [hj, Nat.zero_add]
    exact ⟨a, hget, hsv⟩

/-- C8: an ordered batched execution is exactly the flat stop-at-first-error
execution: the aggregate equals the sequential outcome in which every
operation before the first write error reports its success, the erroring
operation reports its error, and nothing later is recorded; and the
operations actually dispatched are precisely the prefix of the submitted
sequence up to and including the first erroring operation — so once a batch
reports a write error no operation of any later batch, nor any operation
after the error inside the erroring batch, is ever attempted, while every
success from before the error is preserved. -/
theorem ordered_execution_stops_at_first_error (mc ms : Nat)
    (server : WriteOp → OpResult) (ops : List WriteOp) :
    executeBulkOrdered mc ms server ops =
      (orderedOutcome server 0 ops, ops.take (stopLen server ops)) := by
  rw [executeBulkOrdered, aggOrdered_flat, splitBatches_join, BulkResult.empty_append]

/-- C9: execute fails with InvalidOperation, without touching the
collaborator, when the submitted operation list is empty or the builder was
already executed once: the result triple returns the builder and the
dispatched-operation trace unchanged. -/
theorem execute_rejects_empty_or_reused (b : BulkOperationBuilder) (mc ms : Nat)
    (server : WriteOp → OpResult) (ordered : Bool) (trace : List WriteOp)
    (h : b.ops = [] ∨ b.executed = true) :
    b.execute mc ms server ordered trace = (.error .invalidOperation, b, trace) := by
  rcases h with h | h
  · rw [BulkOperationBuilder.execute, if_pos (by simp [h])]
  · rw [BulkOperationBuilder.execute]
    by_cases he : b.ops.isEmpty
    · rw [if_pos he]
    · rw [if_neg he, if_pos h]

/-- Witness for C9: a builder with no operations. -/
theorem execute_rejects_empty_or_reused_witness :
    (BulkOperationBuilder.mk [] false).execute 1000 1000 serverW true [] =
      (.error .invalidOperation, ⟨[], false⟩, []) :=
  execute_rejects_empty_or_reused ⟨[], false⟩ 1000 1000 serverW true [] (Or.inl rfl)

/-- C10: constructing the GridFS facade over a database whose write concern
is not acknowledged fails with ConfigurationError, and every successfully
constructed facade holds a database with an acknowledged write concern — so
every facade operation runs under one. -/
theorem init_requires_acknowledged_write_concern (db : Database) (collection : String) :
    (db.writeConcern.acknowledged = false →
      GridFS.init db collection = .error .configurationError)
  ∧ ∀ g : GridFSHandle, GridFS.init db collection = .ok g →
      g.database.writeConcern.acknowledged = true := by
  constructor
  · intro h
    rw [GridFS.init, if_pos (by simp [h])]
  · intro g hg
    cases ha : db.writeConcern.acknowledged
    · rw [GridFS.init, if_pos (by simp [ha])] at hg
      exact absurd hg (by simp)
    · rw [GridFS.init, if_neg (by simp [ha])] at hg
      cases hg
      exact ha
